import Mathlib

/-!
# Verification of the quiz-board game server

Shallow embedding of the session state machine in `server/src/index.ts` of
the `quiz-board` repository: board generation, the socket command handlers
(`join-game`, `roll-dice`, `answer-question`, `restart-game`, `disconnect`)
and the periodic timeout sweep, together with proofs of the specified
properties over reachable session states.

Modelling conventions:
* JS numbers holding positions, indices, ids and timestamps are `Nat`
  (all are nonnegative integers in the program; `Math.max(0, a - b)` is
  `Nat` truncated subtraction).
* `Math.random()`-derived values (the die, the random question index, the
  generated game id) are explicit parameters of the transition functions.
* The `socketToPlayerId` indirection is elided: handlers receive the
  resolved `playerId` directly, mirroring the spec's command signatures.
* The JS `Set` of connected player ids is a duplicate-free `List String`;
  only membership is observed.
-/

namespace QuizBoard

def TURN_TIME_MS : Nat := 30000
def QUESTION_TIME_MS : Nat := 20000

structure Player where
  id : String
  name : String
  position : Nat
deriving DecidableEq, Repr

inductive FieldType
  | NORMAL
  | BOOST
  | TRAP
deriving DecidableEq, Repr

structure BoardField where
  index : Nat
  type : FieldType
  value : Option Nat
deriving DecidableEq, Repr

structure Question where
  id : Nat
  text : String
  options : List String
  correctIndex : Nat
deriving DecidableEq, Repr

structure PendingQuestion where
  playerId : String
  questionId : Nat
deriving DecidableEq, Repr

structure GameSession where
  id : String
  players : List Player
  board : List BoardField
  currentTurn : Nat
  questions : List Question
  pendingQuestion : Option PendingQuestion
  log : List String
  winnerId : Option String
  turnEndsAt : Option Nat
  questionEndsAt : Option Nat
  connectedPlayers : List String
deriving DecidableEq, Repr

/-- `startTurnTimer`: sets the turn deadline and clears the answer deadline. -/
def startTurnTimer (now : Nat) (s : GameSession) : GameSession :=
  { s with turnEndsAt := some (now + TURN_TIME_MS), questionEndsAt := none }

/-- `createBoard(size)`: BOOST (3) on nonzero multiples of 7, else TRAP (2)
on nonzero multiples of 5, else NORMAL. -/
def createBoard (size : Nat) : List BoardField :=
  (List.range size).map fun i =>
    if i ≠ 0 ∧ i % 7 = 0 then { index := i, type := FieldType.BOOST, value := some 3 }
    else if i ≠ 0 ∧ i % 5 = 0 then { index := i, type := FieldType.TRAP, value := some 2 }
    else { index := i, type := FieldType.NORMAL, value := none }

/-- The fresh session registered by the `create-game` HTTP handler
(`sessions.set(gameId, {...})`); `qs` is `getAllQuestions()`, the full
contents of the question repository at creation time. -/
def createSession (gameId : String) (qs : List Question) : GameSession :=
  { id := gameId
    players := []
    board := createBoard 40
    currentTurn := 0
    questions := qs
    pendingQuestion := none
    log := []
    winnerId := none
    turnEndsAt := none
    questionEndsAt := none
    connectedPlayers := [] }

/-- The `create-game` handler's effect on the `sessions` map, with the map
modelled as a function and the generated id `gid` explicit: `Map.set`
unconditionally stores the fresh session under `gid`. -/
def createGameHandler (sessions : String → Option GameSession) (gid : String)
    (qs : List Question) : String → Option GameSession :=
  fun k => if k = gid then some (createSession gid qs) else sessions k

/-- In-place `player.name = name` on the first player matching `pid`
(JS `players.find` returns the first match and the handler mutates it). -/
def updateName : List Player → String → String → List Player
  | [], _, _ => []
  | p :: ps, pid, nm =>
    if p.id = pid then { p with name := nm } :: ps else p :: updateName ps pid nm

/-- In-place `player.position = x` on the first player matching `pid`. -/
def updPos : List Player → String → Nat → List Player
  | [], _, _ => []
  | p :: ps, pid, x =>
    if p.id = pid then { p with position := x } :: ps else p :: updPos ps pid x

/-- `connectedPlayers.add(pid)` on the set-as-list. -/
def addConnected (l : List String) (pid : String) : List String :=
  if pid ∈ l then l else pid :: l

/-- `connectedPlayers.delete(pid)` on the set-as-list. -/
def removeConnected (l : List String) (pid : String) : List String :=
  l.filter (fun q => q != pid)

/-- JS `players.findIndex(p => p.id === pid)`, with the sentinel `-1`
rendered as `none`. -/
def findIndexId : List Player → String → Option Nat
  | [], _ => none
  | p :: ps, pid =>
    if p.id = pid then some 0 else (findIndexId ps pid).map (· + 1)

/-- The shared tail of several handlers: `nextPlayer = players[currentTurn];
if (nextPlayer && connected.has(nextPlayer.id)) startTurnTimer else
turnEndsAt = undefined`. -/
def armIfConnected (now : Nat) (s : GameSession) : GameSession :=
  match s.players.get? s.currentTurn with
  | some np =>
      if np.id ∈ s.connectedPlayers then startTurnTimer now s
      else { s with turnEndsAt := none }
  | none => { s with turnEndsAt := none }

def rollMessage (nm : String) (d pos : Nat) : String :=
  nm ++ " rolled " ++ toString d ++ " and moved to position " ++ toString pos

def winMessage (nm : String) : String :=
  nm ++ " wins!"

def fwdMessage (nm : String) (v pos : Nat) : String :=
  nm ++ " answered correctly! Moved forward " ++ toString v ++
    " spaces to position " ++ toString pos

def wrongNoMoveMessage (nm : String) : String :=
  nm ++ " answered incorrectly. No movement."

def backMessage (nm : String) (v pos : Nat) : String :=
  nm ++ " answered incorrectly! Moved backward " ++ toString v ++
    " spaces to position " ++ toString pos

def correctNoMoveMessage (nm : String) : String :=
  nm ++ " answered correctly! No movement."

def timeoutBackMessage (nm : String) (v pos : Nat) : String :=
  nm ++ " timed out! Moved backward " ++ toString v ++
    " spaces to position " ++ toString pos

def timeoutNoMoveMessage (nm : String) : String :=
  nm ++ " timed out! No movement."

def skippedMessage (nm : String) : String :=
  nm ++ " skipped (turn timeout)"

def pausedMessage (nm : String) : String :=
  nm ++ " disconnected. Game paused."

/-- The `join-game` handler (per-session effect; the session was found). -/
def joinGame (now : Nat) (pid pname : String) (s : GameSession) : GameSession :=
  let found := s.players.any (fun p => p.id == pid)
  let isRejoining := found = true ∧ pid ∉ s.connectedPlayers
  let players1 :=
    if found then updateName s.players pid pname
    else s.players ++ [{ id := pid, name := pname, position := 0 }]
  let s1 := { s with players := players1
                     connectedPlayers := addConnected s.connectedPlayers pid }
  if isRejoining ∧ 2 ≤ s1.players.length ∧ s1.turnEndsAt = none ∧ s1.winnerId = none then
    match s1.players.get? s1.currentTurn with
    | some cp => if cp.id ∈ s1.connectedPlayers then startTurnTimer now s1 else s1
    | none => s1
  else if s1.players.length = 2 ∧ s1.turnEndsAt = none ∧ s1.winnerId = none then
    startTurnTimer now s1
  else s1

/-- The `roll-dice` handler. `d` is the die outcome (`rollDice()`, 1..6 at
runtime) and `qIdx` the random question index
(`Math.floor(Math.random() * questions.length)`); if `qIdx` is out of range
(only possible with an empty question set, where the JS handler faults after
mutating position and log) the state mutated so far is returned. -/
def rollDice (now : Nat) (pid : String) (d qIdx : Nat) (s : GameSession) : GameSession :=
  match s.players.get? s.currentTurn with
  | none => s
  | some cp =>
    if cp.id ≠ pid then s
    else if pid ∉ s.connectedPlayers then s
    else if s.winnerId ≠ none then s
    else if s.pendingQuestion ≠ none then s
    else
      let newPos := min (cp.position + d) (s.board.length - 1)
      let s1 := { s with players := s.players.set s.currentTurn { cp with position := newPos }
                         log := s.log ++ [rollMessage cp.name d newPos] }
      if s.board.length - 1 ≤ newPos then
        { s1 with winnerId := some cp.id
                  turnEndsAt := none
                  log := s1.log ++ [winMessage cp.name] }
      else
        match s1.board.get? newPos with
        | none => s1
        | some field =>
          if field.type = FieldType.BOOST ∨ field.type = FieldType.TRAP then
            match s1.questions.get? qIdx with
            | none => s1
            | some q =>
              { s1 with pendingQuestion := some { playerId := cp.id, questionId := q.id }
                        questionEndsAt := some (now + QUESTION_TIME_MS)
                        turnEndsAt := none }
          else
            armIfConnected now
              { s1 with currentTurn := (s1.currentTurn + 1) % s1.players.length }

/-- The shared tail of `answer-question`: recompute the answering player's
turn index, advance cyclically, and rearm only if the next player is
connected. -/
def nextTurnAfterAnswer (now : Nat) (pid : String) (s : GameSession) : GameSession :=
  let s1 :=
    match findIndexId s.players pid with
    | some i => { s with currentTurn := (i + 1) % s.players.length }
    | none => s
  armIfConnected now s1

/-- The `answer-question` handler. Note the source looks the submitted
`questionId` up in the session's question set but never compares it with
`pendingQuestion.questionId`. -/
def answerQuestion (now : Nat) (pid : String) (questionId answerIndex : Nat)
    (s : GameSession) : GameSession :=
  match s.pendingQuestion with
  | none => s
  | some pq =>
    if pq.playerId ≠ pid then s
    else if pid ∉ s.connectedPlayers then s
    else
      match s.questions.find? (fun q => q.id == questionId) with
      | none => s
      | some question =>
        match s.players.find? (fun p => p.id == pid) with
        | none => s
        | some cp =>
          let isCorrect := question.correctIndex = answerIndex
          let s0 := { s with pendingQuestion := none, questionEndsAt := none }
          match s.board.get? cp.position with
          | none => s0
          | some field =>
            if field.type = FieldType.BOOST then
              if isCorrect then
                let newPos := min (cp.position + field.value.getD 0) (s.board.length - 1)
                let s1 := { s0 with
                  players := updPos s0.players pid newPos
                  log := s0.log ++ [fwdMessage cp.name (field.value.getD 0) newPos] }
                if s.board.length - 1 ≤ newPos then
                  { s1 with winnerId := some pid
                            turnEndsAt := none
                            log := s1.log ++ [winMessage cp.name] }
                else nextTurnAfterAnswer now pid s1
              else
                nextTurnAfterAnswer now pid
                  { s0 with log := s0.log ++ [wrongNoMoveMessage cp.name] }
            else if field.type = FieldType.TRAP then
              if ¬ isCorrect then
                let newPos := cp.position - field.value.getD 0
                nextTurnAfterAnswer now pid
                  { s0 with players := updPos s0.players pid newPos
                            log := s0.log ++ [backMessage cp.name (field.value.getD 0) newPos] }
              else
                nextTurnAfterAnswer now pid
                  { s0 with log := s0.log ++ [correctNoMoveMessage cp.name] }
            else nextTurnAfterAnswer now pid s0

/-- The `restart-game` handler. -/
def restartGame (now : Nat) (s : GameSession) : GameSession :=
  let s0 := { s with players := s.players.map (fun (p : Player) => { p with position := 0 })
                     currentTurn := 0
                     winnerId := none
                     pendingQuestion := none
                     turnEndsAt := none
                     questionEndsAt := none
                     log := [] }
  match s0.players.get? s0.currentTurn with
  | some cp =>
      if 2 ≤ s0.players.length ∧ cp.id ∈ s0.connectedPlayers then startTurnTimer now s0
      else s0
  | none => s0

/-- The `disconnect` handler's effect on one session containing `pid`. -/
def disconnectPlayer (pid : String) (s : GameSession) : GameSession :=
  if pid ∈ s.connectedPlayers then
    let s0 := { s with connectedPlayers := removeConnected s.connectedPlayers pid }
    match s0.players.get? s0.currentTurn with
    | some cp =>
        if cp.id = pid then
          { s0 with turnEndsAt := none
                    questionEndsAt := none
                    log := s0.log ++ [pausedMessage cp.name] }
        else s0
    | none => s0
  else s

/-- The question-timeout branch of the sweep (answer deadline elapsed with a
pending question open). -/
def sweepQuestionBranch (now : Nat) (pq : PendingQuestion) (s : GameSession) : GameSession :=
  match s.players.find? (fun p => p.id == pq.playerId) with
  | some player =>
    if player.id ∈ s.connectedPlayers then
      match s.board.get? player.position with
      | none => s
      | some field =>
        let s1 :=
          if field.type = FieldType.TRAP then
            { s with
              players := updPos s.players pq.playerId (player.position - field.value.getD 0)
              log := s.log ++
                [timeoutBackMessage player.name (field.value.getD 0)
                  (player.position - field.value.getD 0)] }
          else { s with log := s.log ++ [timeoutNoMoveMessage player.name] }
        let s2 :=
          match findIndexId s1.players pq.playerId with
          | some i => { s1 with currentTurn := (i + 1) % s1.players.length }
          | none => s1
        armIfConnected now { s2 with pendingQuestion := none, questionEndsAt := none }
    else armIfConnected now { s with pendingQuestion := none, questionEndsAt := none }
  | none => armIfConnected now { s with pendingQuestion := none, questionEndsAt := none }

/-- The turn-timeout branch of the sweep. -/
def sweepTurnBranch (now : Nat) (s : GameSession) : GameSession :=
  match s.players.get? s.currentTurn with
  | none => s
  | some player =>
    if player.id ∉ s.connectedPlayers then { s with turnEndsAt := none }
    else
      armIfConnected now
        { s with log := s.log ++ [skippedMessage player.name]
                 currentTurn := (s.currentTurn + 1) % s.players.length }

/-- Turn-deadline check of the sweep (runs when the question-timeout
condition did not fire). -/
def turnTimeoutCheck (now : Nat) (s : GameSession) : GameSession :=
  match s.turnEndsAt with
  | some tt => if tt < now then sweepTurnBranch now s else s
  | none => s

/-- One sweep tick's effect on one session (`setInterval` body). -/
def sweepSession (now : Nat) (s : GameSession) : GameSession :=
  if s.winnerId ≠ none then s
  else
    match s.questionEndsAt, s.pendingQuestion with
    | some qt, some pq =>
        if qt < now then sweepQuestionBranch now pq s else turnTimeoutCheck now s
    | _, _ => turnTimeoutCheck now s

/-- One transition of the session state machine, with all environment
inputs (wall clock, die, random question index, identities) quantified. -/
inductive Step : GameSession → GameSession → Prop
  | join (now : Nat) (pid pname : String) (s : GameSession) :
      Step s (joinGame now pid pname s)
  | roll (now : Nat) (pid : String) (d qIdx : Nat) (s : GameSession) :
      Step s (rollDice now pid d qIdx s)
  | answer (now : Nat) (pid : String) (qid aIdx : Nat) (s : GameSession) :
      Step s (answerQuestion now pid qid aIdx s)
  | restart (now : Nat) (s : GameSession) :
      Step s (restartGame now s)
  | leave (pid : String) (s : GameSession) :
      Step s (disconnectPlayer pid s)
  | sweep (now : Nat) (s : GameSession) :
      Step s (sweepSession now s)

/-- Session states reachable from creation through the handlers. -/
inductive Reachable : GameSession → Prop
  | init (gid : String) (qs : List Question) : Reachable (createSession gid qs)
  | step {s s' : GameSession} : Reachable s → Step s s' → Reachable s'

/-- The exact condition (over the pre-join state) under which the join
handler arms a fresh turn deadline: no turn deadline and no winner, and
either a previously seen but disconnected player rejoins while the player
list has at least 2 entries and the acting player is connected once the
joiner is added, or that guard fails and the post-join player list has
exactly 2 entries. -/
def JoinArmCond (pid : String) (s : GameSession) : Prop :=
  s.turnEndsAt = none ∧ s.winnerId = none ∧
    (((s.players.any (fun p => p.id == pid) = true ∧ pid ∉ s.connectedPlayers) ∧
        2 ≤ s.players.length ∧
        ∃ cp, s.players.get? s.currentTurn = some cp ∧
          cp.id ∈ addConnected s.connectedPlayers pid) ∨
      (¬((s.players.any (fun p => p.id == pid) = true ∧ pid ∉ s.connectedPlayers) ∧
          2 ≤ s.players.length) ∧
        (if s.players.any (fun p => p.id == pid) = true then s.players.length
         else s.players.length + 1) = 2))

/-! ## Concrete scenario states (built through the handlers) -/

def qOne : Question := { id := 1, text := "one", options := ["a", "b"], correctIndex := 0 }

def qTwo : Question := { id := 2, text := "two", options := ["a", "b"], correctIndex := 0 }

/-- Alice and Bob joined a fresh session at time 0. -/
def sessAB : GameSession :=
  joinGame 0 "B" "Bob" (joinGame 0 "A" "Alice" (createSession "G" [qOne, qTwo]))

/-- Alice rolled a 5 and landed on the TRAP at index 5; question 1 is
pending for her with the answer deadline at 20000. -/
def sessPend : GameSession := rollDice 0 "A" 5 0 sessAB

/-- Bob disconnected after both joined. -/
def sessBGone : GameSession := disconnectPlayer "B" sessAB

/-- A session in which the only player Alice joined and then disconnected. -/
def sessAGone : GameSession :=
  disconnectPlayer "A" (joinGame 0 "A" "Alice" (createSession "G" []))

/-- A finished game: Alice and Bob alternate legal rolls (avoiding special
fields) until Alice reaches index 39 and wins. -/
def sessWin : GameSession :=
  rollDice 0 "A" 6 0 (rollDice 0 "B" 6 0 (rollDice 0 "A" 6 0 (rollDice 0 "B" 3 0
    (rollDice 0 "A" 3 0 (rollDice 0 "B" 6 0 (rollDice 0 "A" 6 0 (rollDice 0 "B" 6 0
      (rollDice 0 "A" 6 0 (rollDice 0 "B" 6 0 (rollDice 0 "A" 6 0 (rollDice 0 "B" 6 0
        (rollDice 0 "A" 6 0 sessAB))))))))))))

/-- A session registry holding the live session `sessAB` under code "G". -/
def sessionsBefore : String → Option GameSession :=
  fun k => if k = "G" then some sessAB else none

/-! ## Session invariants -/

/-- The turn deadline and the answer deadline are never both set. -/
def DeadlinesExclusive (s : GameSession) : Prop :=
  s.turnEndsAt = none ∨ s.questionEndsAt = none

/-- Once a winner is set, no pending question is open. -/
def WinnerNoPending (s : GameSession) : Prop :=
  s.winnerId = none ∨ s.pendingQuestion = none

/-- While an answer deadline is armed for a pending question, the pending
player is the connected acting player. -/
def PendingCurrent (s : GameSession) : Prop :=
  ∀ pq qt, s.pendingQuestion = some pq → s.questionEndsAt = some qt →
    ∃ cp, s.players.get? s.currentTurn = some cp ∧ cp.id = pq.playerId ∧
      pq.playerId ∈ s.connectedPlayers

/-- Player ids are pairwise distinct. -/
def IdsNodup (s : GameSession) : Prop :=
  (s.players.map Player.id).Nodup

/-- The board is the 40-field board generated at creation. -/
def BoardFixed (s : GameSession) : Prop :=
  s.board = createBoard 40

/-- Every player's position is a valid board index. -/
def PositionsInRange (s : GameSession) : Prop :=
  ∀ p ∈ s.players, p.position < 40

/-- The inductive session invariant. -/
def Inv (s : GameSession) : Prop :=
  DeadlinesExclusive s ∧ WinnerNoPending s ∧ PendingCurrent s ∧
    IdsNodup s ∧ BoardFixed s ∧ PositionsInRange s

/-! ## Basic lemmas about the helpers -/

theorem createBoard_length (n : Nat) : (createBoard n).length = n := by
  simp [createBoard]

theorem createBoard_get? (n i : Nat) (h : i < n) :
    (createBoard n).get? i =
      some (if i ≠ 0 ∧ i % 7 = 0 then
              { index := i, type := FieldType.BOOST, value := some 3 }
            else if i ≠ 0 ∧ i % 5 = 0 then
              { index := i, type := FieldType.TRAP, value := some 2 }
            else { index := i, type := FieldType.NORMAL, value := none }) := by
  simp only [createBoard, List.get?_map, List.get?_range h, Option.map_some']

theorem armIfConnected_players (now : Nat) (s : GameSession) :
    (armIfConnected now s).players = s.players := by
  unfold armIfConnected startTurnTimer
  split
  · split <;> rfl
  · rfl

theorem armIfConnected_pending (now : Nat) (s : GameSession) :
    (armIfConnected now s).pendingQuestion = s.pendingQuestion := by
  unfold armIfConnected startTurnTimer
  split
  · split <;> rfl
  · rfl

theorem armIfConnected_winner (now : Nat) (s : GameSession) :
    (armIfConnected now s).winnerId = s.winnerId := by
  unfold armIfConnected startTurnTimer
  split
  · split <;> rfl
  · rfl

theorem armIfConnected_board (now : Nat) (s : GameSession) :
    (armIfConnected now s).board = s.board := by
  unfold armIfConnected startTurnTimer
  split
  · split <;> rfl
  · rfl

theorem armIfConnected_conn (now : Nat) (s : GameSession) :
    (armIfConnected now s).connectedPlayers = s.connectedPlayers := by
  unfold armIfConnected startTurnTimer
  split
  · split <;> rfl
  · rfl

theorem armIfConnected_turn (now : Nat) (s : GameSession) :
    (armIfConnected now s).currentTurn = s.currentTurn := by
  unfold armIfConnected startTurnTimer
  split
  · split <;> rfl
  · rfl

theorem armIfConnected_log (now : Nat) (s : GameSession) :
    (armIfConnected now s).log = s.log := by
  unfold armIfConnected startTurnTimer
  split
  · split <;> rfl
  · rfl

theorem armIfConnected_excl (now : Nat) (s : GameSession) :
    DeadlinesExclusive (armIfConnected now s) := by
  unfold DeadlinesExclusive armIfConnected startTurnTimer
  split
  · split
    · exact Or.inr rfl
    · exact Or.inl rfl
  · exact Or.inl rfl

theorem armIfConnected_qEnds (now : Nat) (s : GameSession)
    (h : s.questionEndsAt = none) :
    (armIfConnected now s).questionEndsAt = none := by
  unfold armIfConnected startTurnTimer
  split
  · split
    · rfl
    · exact h
  · exact h

theorem armIfConnected_turnEndsAt (now : Nat) (s : GameSession) (np : Player)
    (h : s.players.get? s.currentTurn = some np) :
    (armIfConnected now s).turnEndsAt =
      if np.id ∈ s.connectedPlayers then some (now + TURN_TIME_MS) else none := by
  unfold armIfConnected startTurnTimer
  split
  · next np' h' =>
    rw [h] at h'
    cases h'
    split <;> simp_all
  · next h' => rw [h] at h'; cases h'

theorem updateName_map_id (l : List Player) (pid nm : String) :
    (updateName l pid nm).map Player.id = l.map Player.id := by
  induction l with
  | nil => rfl
  | cons p ps ih =>
    unfold updateName
    split <;> simp [ih]

theorem updateName_length (l : List Player) (pid nm : String) :
    (updateName l pid nm).length = l.length := by
  induction l with
  | nil => rfl
  | cons p ps ih =>
    unfold updateName
    split <;> simp [ih]

theorem updateName_get?_idpos (l : List Player) (pid nm : String) (i : Nat) :
    ((updateName l pid nm).get? i).map (fun p => (p.id, p.position)) =
      (l.get? i).map (fun p => (p.id, p.position)) := by
  induction l generalizing i with
  | nil => rfl
  | cons p ps ih =>
    unfold updateName
    split
    · cases i <;> simp
    · cases i with
      | zero => simp
      | succ n => simpa using ih n

theorem updateName_positions (l : List Player) (pid nm : String) :
    ∀ p' ∈ updateName l pid nm, ∃ p ∈ l, p'.position = p.position := by
  induction l with
  | nil => intro p' h; cases h
  | cons p ps ih =>
    unfold updateName
    split
    · intro p' h
      rcases List.mem_cons.mp h with h | h
      · exact ⟨p, List.mem_cons_self .., by simp [h]⟩
      · exact ⟨p', List.mem_cons_of_mem _ h, rfl⟩
    · intro p' h
      rcases List.mem_cons.mp h with h | h
      · exact ⟨p, List.mem_cons_self .., by simp [h]⟩
      · obtain ⟨q, hq, hpos⟩ := ih p' h
        exact ⟨q, List.mem_cons_of_mem _ hq, hpos⟩

theorem updPos_map_id (l : List Player) (pid : String) (x : Nat) :
    (updPos l pid x).map Player.id = l.map Player.id := by
  induction l with
  | nil => rfl
  | cons p ps ih =>
    unfold updPos
    split <;> simp [ih]

theorem updPos_length (l : List Player) (pid : String) (x : Nat) :
    (updPos l pid x).length = l.length := by
  induction l with
  | nil => rfl
  | cons p ps ih =>
    unfold updPos
    split <;> simp [ih]

theorem updPos_positions (l : List Player) (pid : String) (x : Nat) :
    ∀ p' ∈ updPos l pid x, p'.position = x ∨ ∃ p ∈ l, p'.position = p.position := by
  induction l with
  | nil => intro p' h; cases h
  | cons p ps ih =>
    unfold updPos
    split
    · intro p' h
      rcases List.mem_cons.mp h with h | h
      · left; simp [h]
      · right; exact ⟨p', List.mem_cons_of_mem _ h, rfl⟩
    · intro p' h
      rcases List.mem_cons.mp h with h | h
      · right; exact ⟨p, List.mem_cons_self .., by simp [h]⟩
      · rcases ih p' h with h' | ⟨q, hq, hpos⟩
        · exact Or.inl h'
        · exact Or.inr ⟨q, List.mem_cons_of_mem _ hq, hpos⟩

theorem find?_updPos (l : List Player) (pid : String) (x : Nat) (cp : Player)
    (h : l.find? (fun p => p.id == pid) = some cp) :
    (updPos l pid x).find? (fun p => p.id == pid) = some { cp with position := x } := by
  induction l with
  | nil => simp [List.find?] at h
  | cons p ps ih =>
    unfold updPos
    by_cases hp : p.id = pid
    · rw [List.find?_cons_of_pos _ (by simp [hp])] at h
      cases h
      simp only [if_pos hp]
      exact List.find?_cons_of_pos _ (by simp [hp])
    · rw [List.find?_cons_of_neg _ (by simp [hp])] at h
      simp only [if_neg hp]
      rw [List.find?_cons_of_neg _ (by simp [hp])]
      exact ih h

theorem mem_addConnected (l : List String) (pid x : String) :
    x ∈ addConnected l pid ↔ x = pid ∨ x ∈ l := by
  unfold addConnected
  split
  · next h => constructor
              · exact Or.inr
              · rintro (rfl | hx)
                · exact h
                · exact hx
  · simp [List.mem_cons]

theorem mem_removeConnected (l : List String) (pid x : String) :
    x ∈ removeConnected l pid ↔ x ∈ l ∧ x ≠ pid := by
  unfold removeConnected
  simp [List.mem_filter]

theorem find?_of_get?_nodup (l : List Player) (i : Nat) (cp : Player)
    (hn : (l.map Player.id).Nodup) (hg : l.get? i = some cp) :
    l.find? (fun p => p.id == cp.id) = some cp := by
  induction l generalizing i with
  | nil => simp at hg
  | cons p ps ih =>
    cases i with
    | zero =>
      cases hg
      exact List.find?_cons_of_pos _ (by simp)
    | succ n =>
      simp only [List.get?_cons_succ] at hg
      have hmem : cp ∈ ps := List.get?_mem hg
      have hne : ¬ p.id = cp.id := by
        intro he
        have : p.id ∈ ps.map Player.id := he ▸ List.mem_map_of_mem _ hmem
        exact (List.nodup_cons.mp (by simpa using hn)).1 this
      rw [List.find?_cons_of_neg _ (by simp [hne])]
      exact ih n (List.nodup_cons.mp (by simpa using hn)).2 hg

theorem findIndexId_of_get?_nodup (l : List Player) (i : Nat) (cp : Player)
    (hn : (l.map Player.id).Nodup) (hg : l.get? i = some cp) :
    findIndexId l cp.id = some i := by
  induction l generalizing i with
  | nil => simp at hg
  | cons p ps ih =>
    cases i with
    | zero =>
      cases hg
      unfold findIndexId
      simp
    | succ n =>
      simp only [List.get?_cons_succ] at hg
      have hmem : cp ∈ ps := List.get?_mem hg
      have hne : ¬ p.id = cp.id := by
        intro he
        have : p.id ∈ ps.map Player.id := he ▸ List.mem_map_of_mem _ hmem
        exact (List.nodup_cons.mp (by simpa using hn)).1 this
      unfold findIndexId
      rw [if_neg hne, ih n (List.nodup_cons.mp (by simpa using hn)).2 hg]
      rfl

theorem findIndexId_updPos (l : List Player) (pid qid : String) (x : Nat) :
    findIndexId (updPos l pid x) qid = findIndexId l qid := by
  induction l with
  | nil => rfl
  | cons p ps ih =>
    unfold updPos
    split
    · unfold findIndexId
      simp
    · unfold findIndexId
      split <;> simp [ih]

theorem get?_set_same (l : List Player) (i : Nat) (a b : Player)
    (h : l.get? i = some b) :
    (l.set i a).get? i = some a := by
  induction l generalizing i with
  | nil => simp at h
  | cons p ps ih =>
    cases i with
    | zero => rfl
    | succ n => exact ih n (by simpa using h)

theorem map_id_set (l : List Player) (i : Nat) (a b : Player)
    (h : l.get? i = some b) (hid : a.id = b.id) :
    (l.set i a).map Player.id = l.map Player.id := by
  induction l generalizing i with
  | nil => simp at h
  | cons p ps ih =>
    cases i with
    | zero =>
      cases h
      simp [hid]
    | succ n =>
      simp only [List.get?_cons_succ] at h
      simp [ih n h]

/-! ## Invariant preservation -/

theorem armIfConnected_cases (now : Nat) (s : GameSession) :
    armIfConnected now s = startTurnTimer now s ∨
    armIfConnected now s = { s with turnEndsAt := none } := by
  unfold armIfConnected
  split
  · split
    · exact Or.inl rfl
    · exact Or.inr rfl
  · exact Or.inr rfl

theorem inv_startTurnTimer (now : Nat) (s : GameSession)
    (h2 : WinnerNoPending s) (h4 : IdsNodup s) (h5 : BoardFixed s)
    (h6 : PositionsInRange s) :
    Inv (startTurnTimer now s) := by
  refine ⟨Or.inr rfl, h2, ?_, h4, h5, h6⟩
  intro pq qt hpq hqt
  cases hqt

theorem inv_armIfConnected (now : Nat) (s : GameSession)
    (h2 : WinnerNoPending s) (h3 : PendingCurrent s) (h4 : IdsNodup s)
    (h5 : BoardFixed s) (h6 : PositionsInRange s) :
    Inv (armIfConnected now s) := by
  rcases armIfConnected_cases now s with hc | hc <;> rw [hc]
  · exact inv_startTurnTimer now s h2 h4 h5 h6
  · exact ⟨Or.inl rfl, h2, fun pq qt hpq hqt => h3 pq qt hpq hqt, h4, h5, h6⟩

theorem inv_createSession (gid : String) (qs : List Question) :
    Inv (createSession gid qs) := by
  refine ⟨Or.inl rfl, Or.inl rfl, ?_, ?_, rfl, ?_⟩
  · intro pq qt hpq _
    cases hpq
  · simp [IdsNodup, createSession]
  · intro p hp
    cases hp

theorem inv_restartGame (now : Nat) (s : GameSession) (h : Inv s) :
    Inv (restartGame now s) := by
  obtain ⟨h1, h2, h3, h4, h5, h6⟩ := h
  have hnodup : ((s.players.map (fun (p : Player) => { p with position := 0 })).map
      Player.id).Nodup := by
    rw [List.map_map]
    exact h4
  have hpos : ∀ p' ∈ s.players.map (fun (p : Player) => { p with position := 0 }),
      p'.position < 40 := by
    intro p' hp'
    obtain ⟨p, _, rfl⟩ := List.mem_map.mp hp'
    exact Nat.zero_lt_succ _
  unfold restartGame
  dsimp only
  split
  · split
    · exact inv_startTurnTimer now _ (Or.inl rfl) hnodup h5 hpos
    · refine ⟨Or.inl rfl, Or.inl rfl, ?_, hnodup, h5, hpos⟩
      intro pq qt hpq _
      cases hpq
  · refine ⟨Or.inl rfl, Or.inl rfl, ?_, hnodup, h5, hpos⟩
    intro pq qt hpq _
    cases hpq

theorem inv_disconnectPlayer (pid : String) (s : GameSession) (h : Inv s) :
    Inv (disconnectPlayer pid s) := by
  obtain ⟨h1, h2, h3, h4, h5, h6⟩ := h
  unfold disconnectPlayer
  dsimp only
  split
  · split
    · next cp hcp =>
      split
      · refine ⟨Or.inl rfl, h2, ?_, h4, h5, h6⟩
        intro pq qt hpq hqt
        cases hqt
      · next hne =>
        refine ⟨h1, h2, ?_, h4, h5, h6⟩
        intro pq qt hpq hqt
        obtain ⟨cp', hg, hid, hconn⟩ := h3 pq qt hpq hqt
        have hcc : cp' = cp := by
          have := hcp
          rw [hg] at this
          exact Option.some.inj this
        refine ⟨cp', hg, hid, ?_⟩
        rw [mem_removeConnected]
        exact ⟨hconn, by rw [← hid, hcc]; exact hne⟩
    · next hnone =>
      refine ⟨h1, h2, ?_, h4, h5, h6⟩
      intro pq qt hpq hqt
      obtain ⟨cp', hg, _, _⟩ := h3 pq qt hpq hqt
      rw [hnone] at hg
      cases hg
  · exact ⟨h1, h2, h3, h4, h5, h6⟩

theorem inv_joinGame (now : Nat) (pid pname : String) (s : GameSession) (h : Inv s) :
    Inv (joinGame now pid pname s) := by
  obtain ⟨h1, h2, h3, h4, h5, h6⟩ := h
  have hs1T : Inv { s with
      players := updateName s.players pid pname
      connectedPlayers := addConnected s.connectedPlayers pid } := by
    refine ⟨h1, h2, ?_, ?_, h5, ?_⟩
    · intro pq qt hpq hqt
      obtain ⟨cp, hg, hid, hconn⟩ := h3 pq qt hpq hqt
      have hup := updateName_get?_idpos s.players pid pname s.currentTurn
      rw [hg] at hup
      have hex : ∃ cp', (updateName s.players pid pname).get? s.currentTurn = some cp' ∧
          cp'.id = cp.id := by
        cases hu : (updateName s.players pid pname).get? s.currentTurn with
        | none => rw [hu] at hup; cases hup
        | some cp' =>
          rw [hu] at hup
          simp only [Option.map_some', Option.some.injEq, Prod.mk.injEq] at hup
          exact ⟨cp', rfl, hup.1⟩
      obtain ⟨cp', hu, hid'⟩ := hex
      exact ⟨cp', hu, by rw [hid', hid],
        (mem_addConnected s.connectedPlayers pid pq.playerId).mpr (Or.inr hconn)⟩
    · show (List.map Player.id (updateName s.players pid pname)).Nodup
      rw [updateName_map_id]
      exact h4
    · intro p' hp'
      obtain ⟨p, hp, hpos⟩ := updateName_positions s.players pid pname p' hp'
      rw [hpos]
      exact h6 p hp
  have hs1F : ¬ s.players.any (fun p => p.id == pid) = true → Inv { s with
      players := s.players ++ [{ id := pid, name := pname, position := 0 }]
      connectedPlayers := addConnected s.connectedPlayers pid } := by
    intro hf
    have hpid : pid ∉ s.players.map Player.id := by
      intro hmem
      obtain ⟨p, hp, hpe⟩ := List.mem_map.mp hmem
      exact hf (List.any_eq_true.mpr ⟨p, hp, by simp [hpe]⟩)
    refine ⟨h1, h2, ?_, ?_, h5, ?_⟩
    · intro pq qt hpq hqt
      obtain ⟨cp, hg, hid, hconn⟩ := h3 pq qt hpq hqt
      obtain ⟨hlt, -⟩ := List.get?_eq_some.mp hg
      refine ⟨cp, ?_, hid,
        (mem_addConnected s.connectedPlayers pid pq.playerId).mpr (Or.inr hconn)⟩
      show (s.players ++ [({ id := pid, name := pname, position := 0 } : Player)]).get?
        s.currentTurn = some cp
      rw [List.get?_append hlt]
      exact hg
    · show (List.map Player.id
        (s.players ++ [({ id := pid, name := pname, position := 0 } : Player)])).Nodup
      simp only [List.map_append, List.map_cons, List.map_nil]
      rw [List.nodup_append]
      refine ⟨h4, List.nodup_singleton _, ?_⟩
      intro a ha hb
      simp only [List.mem_singleton] at hb
      subst hb
      exact hpid ha
    · intro p' hp'
      rcases List.mem_append.mp hp' with hmem | hmem
      · exact h6 p' hmem
      · simp only [List.mem_singleton] at hmem
        rw [hmem]
        exact Nat.zero_lt_succ _
  unfold joinGame
  dsimp only
  by_cases hf : s.players.any (fun p => p.id == pid) = true
  · rw [if_pos hf]
    split
    · split
      · split
        · exact inv_startTurnTimer now _ hs1T.2.1 hs1T.2.2.2.1 hs1T.2.2.2.2.1 hs1T.2.2.2.2.2
        · exact hs1T
      · exact hs1T
    · split
      · exact inv_startTurnTimer now _ hs1T.2.1 hs1T.2.2.2.1 hs1T.2.2.2.2.1 hs1T.2.2.2.2.2
      · exact hs1T
  · rw [if_neg hf]
    have hsF := hs1F hf
    split
    · split
      · split
        · exact inv_startTurnTimer now _ hsF.2.1 hsF.2.2.2.1 hsF.2.2.2.2.1 hsF.2.2.2.2.2
        · exact hsF
      · exact hsF
    · split
      · exact inv_startTurnTimer now _ hsF.2.1 hsF.2.2.2.1 hsF.2.2.2.2.1 hsF.2.2.2.2.2
      · exact hsF

theorem inv_rollDice (now : Nat) (pid : String) (d qIdx : Nat) (s : GameSession)
    (h : Inv s) : Inv (rollDice now pid d qIdx s) := by
  obtain ⟨h1, h2, h3, h4, h5, h6⟩ := h
  unfold rollDice
  dsimp only
  split
  · exact ⟨h1, h2, h3, h4, h5, h6⟩
  · next cp hcp =>
    split
    · exact ⟨h1, h2, h3, h4, h5, h6⟩
    · next hid0 =>
      split
      · exact ⟨h1, h2, h3, h4, h5, h6⟩
      · next hconn0 =>
        split
        · exact ⟨h1, h2, h3, h4, h5, h6⟩
        · next hwin0 =>
          split
          · exact ⟨h1, h2, h3, h4, h5, h6⟩
          · next hpend0 =>
            have hid : cp.id = pid := not_not.mp hid0
            have hconn : pid ∈ s.connectedPlayers := not_not.mp hconn0
            have hwin : s.winnerId = none := not_not.mp hwin0
            have hpend : s.pendingQuestion = none := not_not.mp hpend0
            have hlen : s.board.length = 40 := by rw [h5]; exact createBoard_length 40
            have hposnew : min (cp.position + d) (s.board.length - 1) < 40 := by
              rw [hlen]
              exact Nat.lt_of_le_of_lt (Nat.min_le_right _ _) (by decide)
            have hnodup1 : (List.map Player.id (s.players.set s.currentTurn
                { cp with position := min (cp.position + d) (s.board.length - 1) })).Nodup := by
              rw [map_id_set s.players s.currentTurn
                { cp with position := min (cp.position + d) (s.board.length - 1) } cp hcp rfl]
              exact h4
            have hpos1 : ∀ p' ∈ s.players.set s.currentTurn
                { cp with position := min (cp.position + d) (s.board.length - 1) },
                p'.position < 40 := by
              intro p' hp'
              rcases List.mem_or_eq_of_mem_set hp' with hmem | rfl
              · exact h6 p' hmem
              · exact hposnew
            split
            · -- win branch
              refine ⟨Or.inl rfl, Or.inr hpend, ?_, hnodup1, h5, hpos1⟩
              intro pq qt hpq hqt
              rw [hpend] at hpq
              cases hpq
            · split
              · -- board get? none (unreachable on the real board)
                refine ⟨h1, h2, ?_, hnodup1, h5, hpos1⟩
                intro pq qt hpq hqt
                rw [hpend] at hpq
                cases hpq
              · next field hfield =>
                split
                · split
                  · -- question index out of range: partially mutated state
                    refine ⟨h1, h2, ?_, hnodup1, h5, hpos1⟩
                    intro pq qt hpq hqt
                    rw [hpend] at hpq
                    cases hpq
                  · next q hq =>
                    -- question opened
                    refine ⟨Or.inl rfl, Or.inl hwin, ?_, hnodup1, h5, hpos1⟩
                    intro pq qt hpq hqt
                    have hpq' : pq = { playerId := cp.id, questionId := q.id } :=
                      (Option.some.inj hpq).symm
                    refine ⟨{ cp with position := min (cp.position + d) (s.board.length - 1) },
                      get?_set_same s.players s.currentTurn _ cp hcp, ?_, ?_⟩
                    · rw [hpq']
                    · rw [hpq']
                      show cp.id ∈ s.connectedPlayers
                      rw [hid]
                      exact hconn
                · -- NORMAL field: advance and rearm
                  refine inv_armIfConnected now _ (Or.inl hwin) ?_ hnodup1 h5 hpos1
                  intro pq qt hpq hqt
                  rw [hpend] at hpq
                  cases hpq

theorem inv_nextTurnAfterAnswer (now : Nat) (pid : String) (s : GameSession)
    (hpend : s.pendingQuestion = none) (h2 : WinnerNoPending s) (h4 : IdsNodup s)
    (h5 : BoardFixed s) (h6 : PositionsInRange s) :
    Inv (nextTurnAfterAnswer now pid s) := by
  unfold nextTurnAfterAnswer
  dsimp only
  split
  · refine inv_armIfConnected now _ h2 ?_ h4 h5 h6
    intro pq qt hpq hqt
    rw [hpend] at hpq
    cases hpq
  · refine inv_armIfConnected now _ h2 ?_ h4 h5 h6
    intro pq qt hpq hqt
    rw [hpend] at hpq
    cases hpq

theorem inv_answerQuestion (now : Nat) (pid : String) (qid aIdx : Nat)
    (s : GameSession) (h : Inv s) : Inv (answerQuestion now pid qid aIdx s) := by
  obtain ⟨h1, h2, h3, h4, h5, h6⟩ := h
  unfold answerQuestion
  dsimp only
  split
  · exact ⟨h1, h2, h3, h4, h5, h6⟩
  · next pq hpq =>
    split
    · exact ⟨h1, h2, h3, h4, h5, h6⟩
    · next hpid0 =>
      split
      · exact ⟨h1, h2, h3, h4, h5, h6⟩
      · next hconn0 =>
        split
        · exact ⟨h1, h2, h3, h4, h5, h6⟩
        · next question hqfind =>
          split
          · exact ⟨h1, h2, h3, h4, h5, h6⟩
          · next cp hcpfind =>
            have hcpmem : cp ∈ s.players := List.mem_of_find?_eq_some hcpfind
            have hcppos : cp.position < 40 := h6 cp hcpmem
            have hlen : s.board.length = 40 := by rw [h5]; exact createBoard_length 40
            split
            · -- board lookup failed: only the pending fields were cleared
              refine ⟨Or.inr rfl, Or.inr rfl, ?_, h4, h5, h6⟩
              intro pq' qt hpq' hqt
              cases hqt
            · next field hfield =>
              have hnewlt : min (cp.position + field.value.getD 0) (s.board.length - 1)
                  < 40 := by
                rw [hlen]
                exact Nat.lt_of_le_of_lt (Nat.min_le_right _ _) (by decide)
              have hnodupU : ∀ x : Nat,
                  (List.map Player.id (updPos s.players pid x)).Nodup := by
                intro x
                rw [updPos_map_id]
                exact h4
              have hposU : ∀ x : Nat, x < 40 →
                  ∀ p' ∈ updPos s.players pid x, p'.position < 40 := by
                intro x hx p' hp'
                rcases updPos_positions s.players pid x p' hp' with hx' | ⟨p, hp, hpos⟩
                · rw [hx']; exact hx
                · rw [hpos]; exact h6 p hp
              split
              · -- BOOST field
                split
                · -- correct answer
                  split
                  · -- reached the final index: winner
                    refine ⟨Or.inl rfl, Or.inr rfl, ?_, hnodupU _, h5, hposU _ hnewlt⟩
                    intro pq' qt hpq' hqt
                    cases hqt
                  · refine inv_nextTurnAfterAnswer now pid _ rfl (Or.inr rfl)
                      (hnodupU _) h5 (hposU _ hnewlt)
                · refine inv_nextTurnAfterAnswer now pid _ rfl (Or.inr rfl) h4 h5 h6
              · split
                · -- TRAP field
                  split
                  · -- incorrect answer: move backward
                    refine inv_nextTurnAfterAnswer now pid _ rfl (Or.inr rfl)
                      (hnodupU _) h5 (hposU _ ?_)
                    exact Nat.lt_of_le_of_lt (Nat.sub_le _ _) hcppos
                  · refine inv_nextTurnAfterAnswer now pid _ rfl (Or.inr rfl) h4 h5 h6
                · refine inv_nextTurnAfterAnswer now pid _ rfl (Or.inr rfl) h4 h5 h6

theorem inv_clearPendArm (now : Nat) (t : GameSession)
    (h4 : IdsNodup t) (h5 : BoardFixed t) (h6 : PositionsInRange t) :
    Inv (armIfConnected now { t with pendingQuestion := none, questionEndsAt := none }) := by
  refine inv_armIfConnected now _ (Or.inr rfl) ?_ h4 h5 h6
  intro pq qt hpq hqt
  cases hqt

theorem inv_sweepQuestionBranch (now : Nat) (pq : PendingQuestion) (s : GameSession)
    (h : Inv s) : Inv (sweepQuestionBranch now pq s) := by
  obtain ⟨h1, h2, h3, h4, h5, h6⟩ := h
  unfold sweepQuestionBranch
  dsimp only
  split
  · next player hfind =>
    have hmem : player ∈ s.players := List.mem_of_find?_eq_some hfind
    have hppos : player.position < 40 := h6 player hmem
    have hnodupU : ∀ x : Nat,
        (List.map Player.id (updPos s.players pq.playerId x)).Nodup := by
      intro x
      rw [updPos_map_id]
      exact h4
    have hposU : ∀ x : Nat, x < 40 →
        ∀ p' ∈ updPos s.players pq.playerId x, p'.position < 40 := by
      intro x hx p' hp'
      rcases updPos_positions s.players pq.playerId x p' hp' with hx' | ⟨p, hp, hpp⟩
      · rw [hx']; exact hx
      · rw [hpp]; exact h6 p hp
    split
    · -- pending player connected
      split
      · exact ⟨h1, h2, h3, h4, h5, h6⟩
      · next field hfield =>
        have hsub : player.position - field.value.getD 0 < 40 :=
          Nat.lt_of_le_of_lt (Nat.sub_le _ _) hppos
        by_cases htrap : field.type = FieldType.TRAP
        · rw [if_pos htrap]
          dsimp only
          cases hidx : findIndexId (updPos s.players pq.playerId
              (player.position - field.value.getD 0)) pq.playerId with
          | none =>
            dsimp only
            refine inv_clearPendArm now { s with
                players := updPos s.players pq.playerId
                  (player.position - field.value.getD 0)
                log := s.log ++ [timeoutBackMessage player.name (field.value.getD 0)
                  (player.position - field.value.getD 0)] } ?_ ?_ ?_
            · exact hnodupU _
            · exact h5
            · exact hposU _ hsub
          | some i =>
            dsimp only
            refine inv_clearPendArm now { s with
                players := updPos s.players pq.playerId
                  (player.position - field.value.getD 0)
                currentTurn := (i + 1) % (updPos s.players pq.playerId
                  (player.position - field.value.getD 0)).length
                log := s.log ++ [timeoutBackMessage player.name (field.value.getD 0)
                  (player.position - field.value.getD 0)] } ?_ ?_ ?_
            · exact hnodupU _
            · exact h5
            · exact hposU _ hsub
        · rw [if_neg htrap]
          dsimp only
          cases hidx : findIndexId s.players pq.playerId with
          | none =>
            dsimp only
            exact inv_clearPendArm now
              { s with log := s.log ++ [timeoutNoMoveMessage player.name] } h4 h5 h6
          | some i =>
            dsimp only
            exact inv_clearPendArm now
              { s with currentTurn := (i + 1) % s.players.length
                       log := s.log ++ [timeoutNoMoveMessage player.name] } h4 h5 h6
    · exact inv_clearPendArm now s h4 h5 h6
  · exact inv_clearPendArm now s h4 h5 h6

theorem inv_sweepTurnBranch (now : Nat) (s : GameSession)
    (hq : s.questionEndsAt = none) (h : Inv s) : Inv (sweepTurnBranch now s) := by
  obtain ⟨h1, h2, h3, h4, h5, h6⟩ := h
  unfold sweepTurnBranch
  split
  · exact ⟨h1, h2, h3, h4, h5, h6⟩
  · next player hplayer =>
    split
    · refine ⟨Or.inl rfl, h2, ?_, h4, h5, h6⟩
      intro pq qt hpq hqt
      rw [hq] at hqt
      cases hqt
    · refine inv_armIfConnected now _ h2 ?_ h4 h5 h6
      intro pq qt hpq hqt
      rw [hq] at hqt
      cases hqt

theorem inv_turnTimeoutCheck (now : Nat) (s : GameSession) (h : Inv s) :
    Inv (turnTimeoutCheck now s) := by
  unfold turnTimeoutCheck
  split
  · next tt htt =>
    split
    · refine inv_sweepTurnBranch now s ?_ h
      rcases h.1 with h' | h'
      · rw [htt] at h'; cases h'
      · exact h'
    · exact h
  · exact h

theorem inv_sweepSession (now : Nat) (s : GameSession) (h : Inv s) :
    Inv (sweepSession now s) := by
  unfold sweepSession
  split
  · exact h
  · split
    · split
      · exact inv_sweepQuestionBranch now _ s h
      · exact inv_turnTimeoutCheck now s h
    · exact inv_turnTimeoutCheck now s h

theorem inv_step {s s' : GameSession} (h : Inv s) (hs : Step s s') : Inv s' := by
  cases hs with
  | join now pid pname s => exact inv_joinGame now pid pname s h
  | roll now pid d qIdx s => exact inv_rollDice now pid d qIdx s h
  | answer now pid qid aIdx s => exact inv_answerQuestion now pid qid aIdx s h
  | restart now s => exact inv_restartGame now s h
  | leave pid s => exact inv_disconnectPlayer pid s h
  | sweep now s => exact inv_sweepSession now s h

/-- Every reachable session state satisfies the invariant. -/
theorem reachable_inv {s : GameSession} (h : Reachable s) : Inv s := by
  induction h with
  | init gid qs => exact inv_createSession gid qs
  | step _ hs ih => exact inv_step ih hs

/-! ## Projection lemmas for the answer tail -/

theorem nextTurnAfterAnswer_players (now : Nat) (pid : String) (t : GameSession) :
    (nextTurnAfterAnswer now pid t).players = t.players := by
  unfold nextTurnAfterAnswer
  dsimp only
  split
  · rw [armIfConnected_players]
  · rw [armIfConnected_players]

theorem nextTurnAfterAnswer_pending (now : Nat) (pid : String) (t : GameSession) :
    (nextTurnAfterAnswer now pid t).pendingQuestion = t.pendingQuestion := by
  unfold nextTurnAfterAnswer
  dsimp only
  split
  · rw [armIfConnected_pending]
  · rw [armIfConnected_pending]

theorem nextTurnAfterAnswer_winner (now : Nat) (pid : String) (t : GameSession) :
    (nextTurnAfterAnswer now pid t).winnerId = t.winnerId := by
  unfold nextTurnAfterAnswer
  dsimp only
  split
  · rw [armIfConnected_winner]
  · rw [armIfConnected_winner]

theorem nextTurnAfterAnswer_qEnds (now : Nat) (pid : String) (t : GameSession)
    (h : t.questionEndsAt = none) :
    (nextTurnAfterAnswer now pid t).questionEndsAt = none := by
  unfold nextTurnAfterAnswer
  dsimp only
  split
  · exact armIfConnected_qEnds now _ h
  · exact armIfConnected_qEnds now _ h

/-! ## Reachability of the concrete scenario states -/

theorem reach_sessAB : Reachable sessAB := by
  unfold sessAB
  refine Reachable.step ?_ (Step.join 0 "B" "Bob" _)
  refine Reachable.step ?_ (Step.join 0 "A" "Alice" _)
  exact Reachable.init "G" [qOne, qTwo]

theorem reach_sessPend : Reachable sessPend := by
  unfold sessPend
  exact Reachable.step reach_sessAB (Step.roll 0 "A" 5 0 _)

theorem reach_sessWin : Reachable sessWin := by
  unfold sessWin
  refine Reachable.step ?_ (Step.roll 0 "A" 6 0 _)
  refine Reachable.step ?_ (Step.roll 0 "B" 6 0 _)
  refine Reachable.step ?_ (Step.roll 0 "A" 6 0 _)
  refine Reachable.step ?_ (Step.roll 0 "B" 3 0 _)
  refine Reachable.step ?_ (Step.roll 0 "A" 3 0 _)
  refine Reachable.step ?_ (Step.roll 0 "B" 6 0 _)
  refine Reachable.step ?_ (Step.roll 0 "A" 6 0 _)
  refine Reachable.step ?_ (Step.roll 0 "B" 6 0 _)
  refine Reachable.step ?_ (Step.roll 0 "A" 6 0 _)
  refine Reachable.step ?_ (Step.roll 0 "B" 6 0 _)
  refine Reachable.step ?_ (Step.roll 0 "A" 6 0 _)
  refine Reachable.step ?_ (Step.roll 0 "B" 6 0 _)
  refine Reachable.step ?_ (Step.roll 0 "A" 6 0 _)
  exact reach_sessAB

/-! ## Claim theorems -/

/-- C10: every session created by the create-session request starts with a
40-field board, an empty player list, turn index 0, an empty log, no
winner, no pending question, no deadlines, no connections, and the full
contents of the question repository as its question set. -/
theorem C10_creation_initial_state (gid : String) (qs : List Question) :
    (createSession gid qs).board.length = 40 ∧
    (createSession gid qs).players = [] ∧
    (createSession gid qs).currentTurn = 0 ∧
    (createSession gid qs).log = [] ∧
    (createSession gid qs).winnerId = none ∧
    (createSession gid qs).pendingQuestion = none ∧
    (createSession gid qs).turnEndsAt = none ∧
    (createSession gid qs).questionEndsAt = none ∧
    (createSession gid qs).questions = qs ∧
    (createSession gid qs).connectedPlayers = [] := by
  refine ⟨?_, rfl, rfl, rfl, rfl, rfl, rfl, rfl, rfl, rfl⟩
  exact createBoard_length 40

/-- C2 as stated is false: for board length 8 the final field, index 7, is
BOOST with magnitude 3 rather than NORMAL. -/
theorem C2_counterexample :
    2 ≤ 8 ∧ (createBoard 8).get? (8 - 1) =
      some { index := 7, type := FieldType.BOOST, value := some 3 } := by
  exact ⟨by decide, by decide⟩

/-- C2 amended: field 0 is NORMAL, and every field at index i with
0 < i < N — the final index is not special-cased — is BOOST (3) iff i is a
multiple of 7, else TRAP (2) iff i is a multiple of 5, else NORMAL. -/
theorem C2_amended (N i : Nat) (h2 : 2 ≤ N) (h0 : 0 < i) (hiN : i < N) :
    (createBoard N).get? 0 =
      some { index := 0, type := FieldType.NORMAL, value := none } ∧
    (createBoard N).get? i =
      some (if i % 7 = 0 then { index := i, type := FieldType.BOOST, value := some 3 }
        else if i % 5 = 0 then { index := i, type := FieldType.TRAP, value := some 2 }
        else { index := i, type := FieldType.NORMAL, value := none }) := by
  constructor
  · rw [createBoard_get? N 0 (by omega)]
    simp
  · rw [createBoard_get? N i hiN]
    have h0' : i ≠ 0 := Nat.pos_iff_ne_zero.mp h0
    simp [h0']

/-- C2 amended, witnessed on the real board length 40 at index 35 (a
multiple of both 5 and 7, resolved to BOOST). -/
theorem C2_amended_witness :
    2 ≤ 40 ∧ 0 < 35 ∧ 35 < 40 ∧
    (createBoard 40).get? 0 =
      some { index := 0, type := FieldType.NORMAL, value := none } ∧
    (createBoard 40).get? 35 =
      some { index := 35, type := FieldType.BOOST, value := some 3 } := by
  refine ⟨by decide, by decide, by decide, (C2_amended 40 35 (by decide) (by decide)
    (by decide)).1, ?_⟩
  rw [(C2_amended 40 35 (by decide) (by decide) (by decide)).2]
  decide

/-- C3 as stated is false: when the generated code collides with the live
session "G" (which has two players), the create handler silently replaces
it with the fresh empty session. -/
theorem C3_counterexample :
    sessionsBefore "G" = some sessAB ∧ sessAB.players.length = 2 ∧
    createGameHandler sessionsBefore "G" [] "G" = some (createSession "G" []) ∧
    createGameHandler sessionsBefore "G" [] "G" ≠ some sessAB := by
  refine ⟨rfl, by decide, ?_, by decide⟩
  simp [createGameHandler]

/-- C3 amended: session creation performs no collision check: the fresh
session is stored under the generated id unconditionally — replacing any
live session with that id — and other entries are untouched. -/
theorem C3_amended (sessions : String → Option GameSession) (gid : String)
    (qs : List Question) :
    createGameHandler sessions gid qs gid = some (createSession gid qs) ∧
    ∀ k, k ≠ gid → createGameHandler sessions gid qs k = sessions k := by
  constructor
  · simp [createGameHandler]
  · intro k hk
    simp [createGameHandler, hk]

/-- C3 amended, witnessed: a fresh code stores the new session and leaves
the live session "G" untouched. -/
theorem C3_amended_witness :
    createGameHandler sessionsBefore "XYZ" [] "XYZ" = some (createSession "XYZ" []) ∧
    ("G" : String) ≠ "XYZ" ∧
    createGameHandler sessionsBefore "XYZ" [] "G" = sessionsBefore "G" :=
  ⟨(C3_amended sessionsBefore "XYZ" []).1, by decide,
    (C3_amended sessionsBefore "XYZ" []).2 "G" (by decide)⟩

/-- C1 as stated is false: with question 1 pending for the connected
requester Alice, submitting the different question id 2 — which merely
exists in the session's question set — is accepted and changes the session
(Alice is moved backward off the TRAP and the pending question clears). -/
theorem C1_counterexample :
    sessPend.pendingQuestion = some { playerId := "A", questionId := 1 } ∧
    answerQuestion 5 "A" 2 1 sessPend ≠ sessPend ∧
    (answerQuestion 5 "A" 2 1 sessPend).players.find? (fun p => p.id == "A") =
      some { id := "A", name := "Alice", position := 3 } := by
  exact ⟨by decide, by decide, by decide⟩

/-- C1 amended: answerQuestion is a no-op unless a pending question is
open, belongs to the requester, the requester is connected, the submitted
questionId exists in the session's question set (the pending questionId is
never compared against it), and the requester appears in the player list. -/
theorem C1_amended (now : Nat) (pid : String) (qid aIdx : Nat) (s : GameSession)
    (hfail : s.pendingQuestion = none ∨
      (∃ pq, s.pendingQuestion = some pq ∧ pq.playerId ≠ pid) ∨
      pid ∉ s.connectedPlayers ∨
      s.questions.find? (fun q => q.id == qid) = none ∨
      s.players.find? (fun p => p.id == pid) = none) :
    answerQuestion now pid qid aIdx s = s := by
  unfold answerQuestion
  cases hp : s.pendingQuestion with
  | none => rfl
  | some pq =>
    dsimp only
    by_cases hne : pq.playerId ≠ pid
    · rw [if_pos hne]
    · rw [if_neg hne]
      by_cases hco : pid ∉ s.connectedPlayers
      · rw [if_pos hco]
      · rw [if_neg hco]
        rcases hfail with hc | ⟨pq', hpq', hne'⟩ | hc | hc | hc
        · rw [hp] at hc
          cases hc
        · rw [hp] at hpq'
          cases hpq'
          exact absurd hne' hne
        · exact absurd hc hco
        · rw [hc]
        · cases hq : s.questions.find? (fun q => q.id == qid) with
          | none => rfl
          | some question =>
            dsimp only
            rw [hc]

/-- C1 amended, witnessed: on a fresh session with no pending question the
handler leaves the state untouched. -/
theorem C1_amended_witness :
    (createSession "G" []).pendingQuestion = none ∧
    answerQuestion 0 "A" 1 0 (createSession "G" []) = createSession "G" [] :=
  ⟨rfl, C1_amended 0 "A" 1 0 (createSession "G" []) (Or.inl rfl)⟩

/-- C4 as stated is false: after Bob disconnects only one player remains
connected, yet restart arms a fresh turn deadline because the players list
still has two entries and player 0 (Alice) is connected. -/
theorem C4_counterexample :
    sessBGone.connectedPlayers = ["A"] ∧
    sessBGone.players.length = 2 ∧
    (restartGame 50 sessBGone).turnEndsAt = some 30050 := by
  exact ⟨by decide, by decide, by decide⟩

/-- C4 amended: restart resets every position to 0, clears winner, pending
question, answer deadline and log, resets the turn index, and arms a fresh
turn deadline iff the players list has at least 2 entries — connected or
not — and player 0 is connected. -/
theorem C4_amended (now : Nat) (s : GameSession) :
    (∀ p ∈ (restartGame now s).players, p.position = 0) ∧
    (restartGame now s).currentTurn = 0 ∧
    (restartGame now s).winnerId = none ∧
    (restartGame now s).pendingQuestion = none ∧
    (restartGame now s).questionEndsAt = none ∧
    (restartGame now s).log = [] ∧
    ((restartGame now s).turnEndsAt = some (now + TURN_TIME_MS) ∨
      (restartGame now s).turnEndsAt = none) ∧
    ((restartGame now s).turnEndsAt = some (now + TURN_TIME_MS) ↔
      2 ≤ s.players.length ∧
        ∃ p, s.players.get? 0 = some p ∧ p.id ∈ s.connectedPlayers) := by
  have hpos0 : ∀ p' ∈ s.players.map (fun (p : Player) => { p with position := 0 }),
      p'.position = 0 := by
    intro p' hp'
    obtain ⟨p, _, rfl⟩ := List.mem_map.mp hp'
    rfl
  unfold restartGame
  dsimp only
  split
  · next cp hcp =>
    have hg : ∃ p, s.players.get? 0 = some p ∧ cp = { p with position := 0 } := by
      rw [List.get?_map] at hcp
      cases hg0 : s.players.get? 0 with
      | none => rw [hg0] at hcp; cases hcp
      | some p => rw [hg0] at hcp; exact ⟨p, rfl, (Option.some.inj hcp).symm⟩
    obtain ⟨p0, hp0, hcpf⟩ := hg
    split
    · next hcond =>
      refine ⟨hpos0, rfl, rfl, rfl, rfl, rfl, Or.inl rfl, ?_⟩
      constructor
      · intro _
        refine ⟨?_, p0, hp0, ?_⟩
        · have := hcond.1
          rwa [List.length_map] at this
        · have := hcond.2
          rw [hcpf] at this
          exact this
      · intro _
        rfl
    · next hcond =>
      refine ⟨hpos0, rfl, rfl, rfl, rfl, rfl, Or.inr rfl, ?_⟩
      constructor
      · intro hcon
        cases hcon
      · rintro ⟨hlen, p, hp, hmem⟩
        exfalso
        apply hcond
        have hpp0 : p = p0 := Option.some.inj (hp.symm.trans hp0)
        constructor
        · rw [List.length_map]
          exact hlen
        · rw [hcpf]
          show p0.id ∈ s.connectedPlayers
          rw [← hpp0]
          exact hmem
  · next hnone =>
    refine ⟨hpos0, rfl, rfl, rfl, rfl, rfl, Or.inr rfl, ?_⟩
    constructor
    · intro hcon
      cases hcon
    · rintro ⟨hlen, p, hp, hmem⟩
      rw [List.get?_map, hp] at hnone
      cases hnone

/-- C4 amended, witnessed on the session where Bob disconnected. -/
theorem C4_amended_witness :
    (restartGame 50 sessBGone).turnEndsAt = some (50 + TURN_TIME_MS) ∧
    2 ≤ sessBGone.players.length :=
  ⟨(C4_amended 50 sessBGone).2.2.2.2.2.2.2.mpr
      ⟨by decide, { id := "A", name := "Alice", position := 0 }, by decide, by decide⟩,
    by decide⟩

/-- C6: on every reachable session state the turn deadline and the answer
deadline are never both set. -/
theorem C6_deadlines_mutually_exclusive {s : GameSession} (h : Reachable s) :
    s.turnEndsAt = none ∨ s.questionEndsAt = none :=
  (reachable_inv h).1

/-- C6, witnessed on the reachable state with an open question. -/
theorem C6_witness :
    sessPend.turnEndsAt = none ∨ sessPend.questionEndsAt = none :=
  C6_deadlines_mutually_exclusive reach_sessPend

/-- C7: once a winner is set on a reachable session, every rollDice and
answerQuestion call leaves the session unchanged, whatever the inputs. -/
theorem C7_winner_terminal {s : GameSession} (h : Reachable s) (w : String)
    (hw : s.winnerId = some w) (now : Nat) (pid pid' : String) (d qIdx qid aIdx : Nat) :
    rollDice now pid d qIdx s = s ∧ answerQuestion now pid' qid aIdx s = s := by
  constructor
  · unfold rollDice
    cases hcp : s.players.get? s.currentTurn with
    | none => rfl
    | some cp =>
      dsimp only
      by_cases h1 : cp.id ≠ pid
      · rw [if_pos h1]
      · rw [if_neg h1]
        by_cases h2 : pid ∉ s.connectedPlayers
        · rw [if_pos h2]
        · rw [if_neg h2]
          rw [if_pos (show s.winnerId ≠ none by rw [hw]; exact Option.some_ne_none w)]
  · have hpend : s.pendingQuestion = none := by
      rcases (reachable_inv h).2.1 with h' | h'
      · rw [hw] at h'
        cases h'
      · exact h'
    unfold answerQuestion
    rw [hpend]

/-- C7, witnessed on the finished game won by Alice. -/
theorem C7_witness :
    rollDice 7 "B" 4 0 sessWin = sessWin ∧ answerQuestion 7 "A" 1 0 sessWin = sessWin :=
  C7_winner_terminal reach_sessWin "A" (by decide) 7 "B" "A" 4 0 1 0

/-- C5 as stated is false: a brand-new second player "B" joining while the
only existing player is disconnected arms a fresh turn deadline even though
the connected count after the join is 1 (no transition from below 2 to at
least 2) and "B" is not a reconnecting player. -/
theorem C5_counterexample :
    sessAGone.turnEndsAt = none ∧
    sessAGone.players.length = 1 ∧
    sessAGone.connectedPlayers = [] ∧
    sessAGone.players.any (fun p => p.id == "B") = false ∧
    (joinGame 10 "B" "Bob" sessAGone).connectedPlayers = ["B"] ∧
    (joinGame 10 "B" "Bob" sessAGone).turnEndsAt = some (10 + TURN_TIME_MS) := by
  exact ⟨by decide, by decide, by decide, by decide, by decide, by decide⟩

/-- C5 amended: join arms a fresh turn deadline (clearing the answer
deadline) exactly under `JoinArmCond`: no winner and no running turn
deadline, and either a known-but-disconnected player rejoins while the
player list has at least 2 entries and the acting player is connected once
the joiner is counted, or that guard fails and the post-join player list
has exactly 2 entries; in every other case both deadlines are unchanged. -/
theorem C5_amended (now : Nat) (pid pname : String) (s : GameSession) :
    (JoinArmCond pid s →
      (joinGame now pid pname s).turnEndsAt = some (now + TURN_TIME_MS) ∧
      (joinGame now pid pname s).questionEndsAt = none) ∧
    (¬ JoinArmCond pid s →
      (joinGame now pid pname s).turnEndsAt = s.turnEndsAt ∧
      (joinGame now pid pname s).questionEndsAt = s.questionEndsAt) := by
  unfold joinGame
  dsimp only
  by_cases hf : s.players.any (fun p => p.id == pid) = true
  · rw [if_pos hf]
    split
    · next hcond =>
      obtain ⟨⟨hfound, hnconn⟩, hlen, hT, hW⟩ := hcond
      rw [updateName_length] at hlen
      split
      · next cp hcp =>
        split
        · next hmem =>
          constructor
          · intro _
            exact ⟨rfl, rfl⟩
          · intro hn
            exfalso
            apply hn
            refine ⟨hT, hW, Or.inl ⟨⟨hfound, hnconn⟩, hlen, ?_⟩⟩
            have hup := updateName_get?_idpos s.players pid pname s.currentTurn
            rw [hcp] at hup
            cases hg0 : s.players.get? s.currentTurn with
            | none => rw [hg0] at hup; cases hup
            | some p0 =>
              rw [hg0] at hup
              simp only [Option.map_some', Option.some.injEq, Prod.mk.injEq] at hup
              refine ⟨p0, rfl, ?_⟩
              rw [← hup.1]
              exact hmem
        · next hnmem =>
          constructor
          · intro hcnd
            exfalso
            rcases hcnd with ⟨hT', hW', hD⟩
            rcases hD with ⟨hRJ, hlen', cp₀, hg0, hmem0⟩ | ⟨hnrj, hlen2⟩
            · have hup := updateName_get?_idpos s.players pid pname s.currentTurn
              rw [hcp, hg0] at hup
              simp only [Option.map_some', Option.some.injEq, Prod.mk.injEq] at hup
              apply hnmem
              rw [hup.1]
              exact hmem0
            · exact hnrj ⟨⟨hfound, hnconn⟩, hlen⟩
          · intro _
            exact ⟨rfl, rfl⟩
      · next hnone =>
        constructor
        · intro hcnd
          exfalso
          rcases hcnd with ⟨hT', hW', hD⟩
          rcases hD with ⟨hRJ, hlen', cp₀, hg0, hmem0⟩ | ⟨hnrj, hlen2⟩
          · have hup := updateName_get?_idpos s.players pid pname s.currentTurn
            rw [hnone, hg0] at hup
            cases hup
          · exact hnrj ⟨⟨hfound, hnconn⟩, hlen⟩
        · intro _
          exact ⟨rfl, rfl⟩
    · next hncond =>
      split
      · next hcond2 =>
        obtain ⟨hlen2, hT, hW⟩ := hcond2
        rw [updateName_length] at hlen2
        constructor
        · intro _
          exact ⟨rfl, rfl⟩
        · intro hn
          exfalso
          apply hn
          refine ⟨hT, hW, ?_⟩
          by_cases hrj : (s.players.any (fun p => p.id == pid) = true ∧
              pid ∉ s.connectedPlayers) ∧ 2 ≤ s.players.length
          · exact absurd ⟨hrj.1, by rw [updateName_length]; exact hrj.2, hT, hW⟩ hncond
          · refine Or.inr ⟨hrj, ?_⟩
            rw [if_pos hf]
            exact hlen2
      · next hncond2 =>
        constructor
        · intro hcnd
          exfalso
          rcases hcnd with ⟨hT, hW, hD⟩
          rcases hD with ⟨hRJ, hlen', cp₀, hg0, hmem0⟩ | ⟨hnrj, hlenIf⟩
          · exact hncond ⟨hRJ, by rw [updateName_length]; exact hlen', hT, hW⟩
          · rw [if_pos hf] at hlenIf
            exact hncond2 ⟨by rw [updateName_length]; exact hlenIf, hT, hW⟩
        · intro _
          exact ⟨rfl, rfl⟩
  · rw [if_neg hf]
    split
    · next hcond =>
      exact absurd hcond.1.1 hf
    · next hncond =>
      split
      · next hcond2 =>
        obtain ⟨hlen2, hT, hW⟩ := hcond2
        rw [List.length_append] at hlen2
        constructor
        · intro _
          exact ⟨rfl, rfl⟩
        · intro hn
          exfalso
          apply hn
          refine ⟨hT, hW, Or.inr ⟨?_, ?_⟩⟩
          · rintro ⟨⟨hfound, _⟩, _⟩
            exact hf hfound
          · rw [if_neg hf]
            simpa using hlen2
      · next hncond2 =>
        constructor
        · intro hcnd
          exfalso
          rcases hcnd with ⟨hT, hW, hD⟩
          rcases hD with ⟨⟨hfound, _⟩, _⟩ | ⟨hnrj, hlenIf⟩
          · exact hf hfound
          · rw [if_neg hf] at hlenIf
            apply hncond2
            refine ⟨?_, hT, hW⟩
            rw [List.length_append]
            simpa using hlenIf
        · intro _
          exact ⟨rfl, rfl⟩

/-- C5 amended, witnessed: the fresh second join on the orphaned session
satisfies the arming condition and the deadline is armed. -/
theorem C5_amended_witness :
    JoinArmCond "B" sessAGone ∧
    (joinGame 10 "B" "Bob" sessAGone).turnEndsAt = some (10 + TURN_TIME_MS) := by
  have hcond : JoinArmCond "B" sessAGone := by
    refine ⟨by decide, by decide, Or.inr ⟨?_, by decide⟩⟩
    rintro ⟨⟨hfound, -⟩, -⟩
    exact absurd hfound (by decide)
  exact ⟨hcond, ((C5_amended 10 "B" "Bob" sessAGone).1 hcond).1⟩

/-- C8: on every accepted answer (pending question open and owned by the
connected requester, submitted question id found, player found, field
looked up) the pending question and answer deadline are cleared, and:
BOOST with a correct option moves the player forward by the field magnitude
clamped to the final index, setting the winner when the final index is
reached and leaving the winner untouched otherwise; BOOST with an incorrect
option moves nobody; TRAP with an incorrect option moves the player
backward by the magnitude floored at 0 (Nat truncated subtraction); TRAP
with a correct option moves nobody. -/
theorem C8_answer_effects (now : Nat) (pid : String) (qid aIdx : Nat)
    (s : GameSession) (pq : PendingQuestion) (question : Question) (cp : Player)
    (field : BoardField)
    (hpq : s.pendingQuestion = some pq)
    (hbelong : pq.playerId = pid)
    (hconn : pid ∈ s.connectedPlayers)
    (hqfind : s.questions.find? (fun q => q.id == qid) = some question)
    (hcpfind : s.players.find? (fun p => p.id == pid) = some cp)
    (hfield : s.board.get? cp.position = some field) :
    (answerQuestion now pid qid aIdx s).pendingQuestion = none ∧
    (answerQuestion now pid qid aIdx s).questionEndsAt = none ∧
    (field.type = FieldType.BOOST → question.correctIndex = aIdx →
      (answerQuestion now pid qid aIdx s).players.find? (fun p => p.id == pid) =
        some { cp with
          position := min (cp.position + field.value.getD 0) (s.board.length - 1) } ∧
      (s.board.length - 1 ≤ min (cp.position + field.value.getD 0) (s.board.length - 1) →
        (answerQuestion now pid qid aIdx s).winnerId = some pid) ∧
      (¬ s.board.length - 1 ≤ min (cp.position + field.value.getD 0) (s.board.length - 1) →
        (answerQuestion now pid qid aIdx s).winnerId = s.winnerId)) ∧
    (field.type = FieldType.BOOST → question.correctIndex ≠ aIdx →
      (answerQuestion now pid qid aIdx s).players = s.players) ∧
    (field.type = FieldType.TRAP → question.correctIndex ≠ aIdx →
      (answerQuestion now pid qid aIdx s).players.find? (fun p => p.id == pid) =
        some { cp with position := cp.position - field.value.getD 0 }) ∧
    (field.type = FieldType.TRAP → question.correctIndex = aIdx →
      (answerQuestion now pid qid aIdx s).players = s.players) := by
  have hanw : answerQuestion now pid qid aIdx s =
      (if field.type = FieldType.BOOST then
        (if question.correctIndex = aIdx then
          (if s.board.length - 1 ≤
              min (cp.position + field.value.getD 0) (s.board.length - 1) then
            { s with pendingQuestion := none, questionEndsAt := none
                     players := updPos s.players pid
                       (min (cp.position + field.value.getD 0) (s.board.length - 1))
                     log := (s.log ++ [fwdMessage cp.name (field.value.getD 0)
                       (min (cp.position + field.value.getD 0) (s.board.length - 1))]) ++
                       [winMessage cp.name]
                     winnerId := some pid
                     turnEndsAt := none }
          else
            nextTurnAfterAnswer now pid
              { s with pendingQuestion := none, questionEndsAt := none
                       players := updPos s.players pid
                         (min (cp.position + field.value.getD 0) (s.board.length - 1))
                       log := s.log ++ [fwdMessage cp.name (field.value.getD 0)
                         (min (cp.position + field.value.getD 0) (s.board.length - 1))] })
        else
          nextTurnAfterAnswer now pid
            { s with pendingQuestion := none, questionEndsAt := none
                     log := s.log ++ [wrongNoMoveMessage cp.name] })
      else if field.type = FieldType.TRAP then
        (if ¬ question.correctIndex = aIdx then
          nextTurnAfterAnswer now pid
            { s with pendingQuestion := none, questionEndsAt := none
                     players := updPos s.players pid (cp.position - field.value.getD 0)
                     log := s.log ++ [backMessage cp.name (field.value.getD 0)
                       (cp.position - field.value.getD 0)] }
        else
          nextTurnAfterAnswer now pid
            { s with pendingQuestion := none, questionEndsAt := none
                     log := s.log ++ [correctNoMoveMessage cp.name] })
      else
        nextTurnAfterAnswer now pid
          { s with pendingQuestion := none, questionEndsAt := none }) := by
    unfold answerQuestion
    rw [hpq]
    dsimp only
    rw [if_neg (fun hcon => hcon hbelong), if_neg (fun hcon => hcon hconn), hqfind]
    dsimp only
    rw [hcpfind]
    dsimp only
    rw [hfield]
  rw [hanw]
  by_cases hb : field.type = FieldType.BOOST
  · rw [if_pos hb]
    by_cases hcorr : question.correctIndex = aIdx
    · rw [if_pos hcorr]
      by_cases hwin : s.board.length - 1 ≤
          min (cp.position + field.value.getD 0) (s.board.length - 1)
      · rw [if_pos hwin]
        refine ⟨rfl, rfl, ?_, ?_, ?_, ?_⟩
        · intro _ _
          refine ⟨find?_updPos s.players pid _ cp hcpfind, fun _ => rfl, fun hnw => ?_⟩
          exact absurd hwin hnw
        · intro _ hne
          exact absurd hcorr hne
        · intro ht _
          rw [ht] at hb
          cases hb
        · intro ht _
          rw [ht] at hb
          cases hb
      · rw [if_neg hwin]
        refine ⟨?_, ?_, ?_, ?_, ?_, ?_⟩
        · rw [nextTurnAfterAnswer_pending]
        · exact nextTurnAfterAnswer_qEnds now pid _ rfl
        · intro _ _
          refine ⟨?_, fun hw => absurd hw hwin, fun _ => ?_⟩
          · rw [nextTurnAfterAnswer_players]
            exact find?_updPos s.players pid _ cp hcpfind
          · rw [nextTurnAfterAnswer_winner]
        · intro _ hne
          exact absurd hcorr hne
        · intro ht _
          rw [ht] at hb
          cases hb
        · intro ht _
          rw [ht] at hb
          cases hb
    · rw [if_neg hcorr]
      refine ⟨?_, ?_, ?_, ?_, ?_, ?_⟩
      · rw [nextTurnAfterAnswer_pending]
      · exact nextTurnAfterAnswer_qEnds now pid _ rfl
      · intro _ hc
        exact absurd hc hcorr
      · intro _ _
        rw [nextTurnAfterAnswer_players]
      · intro ht _
        rw [ht] at hb
        cases hb
      · intro ht _
        rw [ht] at hb
        cases hb
  · rw [if_neg hb]
    by_cases ht : field.type = FieldType.TRAP
    · rw [if_pos ht]
      by_cases hcorr : question.correctIndex = aIdx
      · rw [if_neg (not_not_intro hcorr)]
        refine ⟨?_, ?_, ?_, ?_, ?_, ?_⟩
        · rw [nextTurnAfterAnswer_pending]
        · exact nextTurnAfterAnswer_qEnds now pid _ rfl
        · intro hbb
          exact absurd hbb hb
        · intro hbb
          exact absurd hbb hb
        · intro _ hne
          exact absurd hcorr hne
        · intro _ _
          rw [nextTurnAfterAnswer_players]
      · rw [if_pos hcorr]
        refine ⟨?_, ?_, ?_, ?_, ?_, ?_⟩
        · rw [nextTurnAfterAnswer_pending]
        · exact nextTurnAfterAnswer_qEnds now pid _ rfl
        · intro hbb
          exact absurd hbb hb
        · intro hbb
          exact absurd hbb hb
        · intro _ _
          rw [nextTurnAfterAnswer_players]
          exact find?_updPos s.players pid _ cp hcpfind
        · intro _ hc
          exact absurd hc hcorr
    · refine ⟨?_, ?_, ?_, ?_, ?_, ?_⟩
      · rw [if_neg ht, nextTurnAfterAnswer_pending]
      · rw [if_neg ht]
        exact nextTurnAfterAnswer_qEnds now pid _ rfl
      · intro hbb
        exact absurd hbb hb
      · intro hbb
        exact absurd hbb hb
      · intro htt
        exact absurd htt ht
      · intro htt
        exact absurd htt ht

/-- C8, witnessed: Alice, pending on the TRAP at index 5, answers question
1 incorrectly and is moved back to position 3 with the pending state
cleared. -/
theorem C8_witness :
    (answerQuestion 5 "A" 1 1 sessPend).pendingQuestion = none ∧
    (answerQuestion 5 "A" 1 1 sessPend).questionEndsAt = none ∧
    (answerQuestion 5 "A" 1 1 sessPend).players.find? (fun p => p.id == "A") =
      some { id := "A", name := "Alice", position := 3 } := by
  have h := C8_answer_effects 5 "A" 1 1 sessPend { playerId := "A", questionId := 1 }
    qOne { id := "A", name := "Alice", position := 5 }
    { index := 5, type := FieldType.TRAP, value := some 2 }
    (by decide) rfl (by decide) (by decide) (by decide) (by decide)
  exact ⟨h.1, h.2.1, h.2.2.2.2.1 rfl (by decide)⟩

/-- C9: when the answer deadline of a winnerless reachable session has
elapsed at a sweep tick with a pending question open, the sweep clears the
pending question and the answer deadline, moves the pending player backward
by the field magnitude (floored at 0 by Nat subtraction) on TRAP and not at
all otherwise, appends one log entry, advances the turn index cyclically,
and arms a fresh turn deadline exactly when the next player is connected —
the same downstream effect as an incorrect answer. -/
theorem C9_question_timeout_sweep {s : GameSession} (h : Reachable s)
    (hw : s.winnerId = none) (pq : PendingQuestion)
    (hpq : s.pendingQuestion = some pq) (qt : Nat)
    (hqt : s.questionEndsAt = some qt) (now : Nat) (hlate : qt < now) :
    ∃ cp field,
      s.players.get? s.currentTurn = some cp ∧ cp.id = pq.playerId ∧
      s.board.get? cp.position = some field ∧
      (sweepSession now s).pendingQuestion = none ∧
      (sweepSession now s).questionEndsAt = none ∧
      (sweepSession now s).currentTurn = (s.currentTurn + 1) % s.players.length ∧
      (sweepSession now s).players.find? (fun p => p.id == pq.playerId) =
        some { cp with
          position := if field.type = FieldType.TRAP then
              cp.position - field.value.getD 0
            else cp.position } ∧
      (∃ m, (sweepSession now s).log = s.log ++ [m]) ∧
      (∃ np, (sweepSession now s).players.get?
          ((s.currentTurn + 1) % s.players.length) = some np ∧
        (np.id ∈ s.connectedPlayers →
          (sweepSession now s).turnEndsAt = some (now + TURN_TIME_MS)) ∧
        (np.id ∉ s.connectedPlayers → (sweepSession now s).turnEndsAt = none)) := by
  obtain ⟨h1, h2, h3, h4, h5, h6⟩ := reachable_inv h
  obtain ⟨cp, hcp, hcpid, hcpconn⟩ := h3 pq qt hpq hqt
  have hfind : s.players.find? (fun p => p.id == pq.playerId) = some cp := by
    have hx := find?_of_get?_nodup s.players s.currentTurn cp h4 hcp
    rw [hcpid] at hx
    exact hx
  have hfidx : findIndexId s.players pq.playerId = some s.currentTurn := by
    have hx := findIndexId_of_get?_nodup s.players s.currentTurn cp h4 hcp
    rw [hcpid] at hx
    exact hx
  have hposlt : cp.position < 40 := h6 cp (List.get?_mem hcp)
  have hfieldex : ∃ field, s.board.get? cp.position = some field := by
    rw [h5]
    exact ⟨_, createBoard_get? 40 cp.position hposlt⟩
  obtain ⟨field, hfieldeq⟩ := hfieldex
  have hconncp : cp.id ∈ s.connectedPlayers := by rw [hcpid]; exact hcpconn
  have hlenpos : 0 < s.players.length := by
    obtain ⟨hlt, -⟩ := List.get?_eq_some.mp hcp
    omega
  have hstep1 : sweepSession now s = sweepQuestionBranch now pq s := by
    unfold sweepSession
    rw [if_neg (fun hne => hne hw), hqt, hpq]
    dsimp only
    rw [if_pos hlate]
  have hsweep : sweepSession now s =
      armIfConnected now
        { s with
          players := if field.type = FieldType.TRAP then
              updPos s.players pq.playerId (cp.position - field.value.getD 0)
            else s.players
          currentTurn := (s.currentTurn + 1) % s.players.length
          pendingQuestion := none
          questionEndsAt := none
          log := s.log ++ [if field.type = FieldType.TRAP then
              timeoutBackMessage cp.name (field.value.getD 0)
                (cp.position - field.value.getD 0)
            else timeoutNoMoveMessage cp.name] } := by
    rw [hstep1]
    unfold sweepQuestionBranch
    rw [hfind]
    dsimp only
    rw [if_pos hconncp, hfieldeq]
    dsimp only
    by_cases htrap : field.type = FieldType.TRAP
    · rw [if_pos htrap, if_pos htrap, if_pos htrap]
      dsimp only
      rw [findIndexId_updPos, hfidx]
      dsimp only
      rw [updPos_length]
    · rw [if_neg htrap, if_neg htrap, if_neg htrap]
      dsimp only
      rw [hfidx]
  have hlt : (s.currentTurn + 1) % s.players.length < s.players.length :=
    Nat.mod_lt _ hlenpos
  have hget : ∃ np, (if field.type = FieldType.TRAP then
      updPos s.players pq.playerId (cp.position - field.value.getD 0)
    else s.players).get? ((s.currentTurn + 1) % s.players.length) = some np := by
    by_cases htrap : field.type = FieldType.TRAP
    · rw [if_pos htrap]
      have hlt' : (s.currentTurn + 1) % s.players.length <
          (updPos s.players pq.playerId (cp.position - field.value.getD 0)).length := by
        rw [updPos_length]
        exact hlt
      exact ⟨_, List.get?_eq_get hlt'⟩
    · rw [if_neg htrap]
      exact ⟨_, List.get?_eq_get hlt⟩
  obtain ⟨np, hnp⟩ := hget
  refine ⟨cp, field, hcp, hcpid, hfieldeq, ?_, ?_, ?_, ?_,
    ⟨if field.type = FieldType.TRAP then
        timeoutBackMessage cp.name (field.value.getD 0)
          (cp.position - field.value.getD 0)
      else timeoutNoMoveMessage cp.name, ?_⟩, np, ?_, ?_, ?_⟩
  · rw [hsweep, armIfConnected_pending]
  · rw [hsweep]
    exact armIfConnected_qEnds now _ rfl
  · rw [hsweep, armIfConnected_turn]
  · rw [hsweep, armIfConnected_players]
    dsimp only
    by_cases htrap : field.type = FieldType.TRAP
    · rw [if_pos htrap, if_pos htrap]
      exact find?_updPos s.players pq.playerId _ cp hfind
    · rw [if_neg htrap, if_neg htrap]
      exact hfind
  · rw [hsweep, armIfConnected_log]
  · rw [hsweep, armIfConnected_players]
    dsimp only
    exact hnp
  · intro hin
    rw [hsweep]
    unfold armIfConnected
    dsimp only
    rw [hnp]
    dsimp only
    rw [if_pos hin]
    rfl
  · intro hout
    rw [hsweep]
    unfold armIfConnected
    dsimp only
    rw [hnp]
    dsimp only
    rw [if_neg hout]

/-- C9, witnessed: the deadline for Alice's pending TRAP question elapses
at tick 30000; the sweep clears it, advances the turn and rearms for the
connected Bob. -/
theorem C9_witness :
    (sweepSession 30000 sessPend).pendingQuestion = none ∧
    (sweepSession 30000 sessPend).questionEndsAt = none ∧
    (sweepSession 30000 sessPend).currentTurn =
      (sessPend.currentTurn + 1) % sessPend.players.length ∧
    (sweepSession 30000 sessPend).turnEndsAt = some (30000 + TURN_TIME_MS) := by
  obtain ⟨cp, field, hcp, hid, hf, hpend, hqe, hturn, hfind, hlog, np, hnp, harm, -⟩ :=
    C9_question_timeout_sweep reach_sessPend rfl { playerId := "A", questionId := 1 }
      (by decide) 20000 (by decide) 30000 (by decide)
  refine ⟨hpend, hqe, hturn, ?_⟩
  have hnpeq : np = { id := "B", name := "Bob", position := 0 } := by
    have h0 : (sweepSession 30000 sessPend).players.get?
        ((sessPend.currentTurn + 1) % sessPend.players.length) =
        some { id := "B", name := "Bob", position := 0 } := by decide
    exact Option.some.inj (hnp.symm.trans h0)
  apply harm
  rw [hnpeq]
  decide

end QuizBoard
